import Mathlib

/-!
Verification of the `nalutbae-dev-knife` command registry and router.

The repository ships a developer-utility toolkit whose core is a command
registry (`CommandRegistry`), a dispatch layer (`CommandRouter`) and a uniform
data model (`InputData`, `ProcessingResult`, `Command`, `Config`), together
with encoding utilities (`Base64EncoderDecoder`, `URLEncoderDecoder`).
The Python implementation modules (`devknife/core/models.py`,
`devknife/core/router.py`, `devknife/core/interfaces.py`,
`devknife/utils/encoding_utility.py`) are not present in the source tree;
only their package re-exports, their callers (`devknife/cli/main.py`) and
their test suites are.  Every definition below is therefore modelled from the
specification of those modules, with observable details (exact message
wording, defaults) pinned by the repository's own test suites where the
specification leaves them open.  Each doc comment records this provenance.

Conventions of the embedding:
* Python dictionaries keyed by strings become association lists
  (`List (String × _)`) with `List.lookup`.
* A Python exception raised by a utility's `process` is an `Except.error`;
  the router returning normally is `Except.ok`.  The router itself is a total
  function into `ProcessingResult × CommandRouter`, so by construction no
  fault escapes it; the theorems additionally show how raised errors are
  converted.
* Object identity of a cached utility instance is modelled by a construction
  counter (`next_instance`): each instantiation consumes a fresh number, so
  "same instance" is "same number".
* Text is modelled at the level of Unicode code points (`Char`); the byte
  view used by the Base64 codec is the code-point value, which coincides with
  the UTF-8 byte for the printable-ASCII inputs over which the round-trip
  properties quantify.
-/

namespace DevKnife

/-- Modelled from the spec: provenance of an input payload
(`InputSource` in `devknife/core/models.py`, absent from the tree):
one of ARGS, STDIN, FILE. -/
inductive InputSource where
  | args
  | stdin
  | file
deriving DecidableEq, Repr

/-- Modelled from the spec: `InputData` (in the missing
`devknife/core/models.py`) — content plus its provenance and an encoding
label defaulting to "utf-8".  Content is modelled as text; the byte form of
the Python model is reached through the encoding and is not needed by any
claim. -/
structure InputData where
  content : String
  source : InputSource
  encoding : String
deriving DecidableEq, Repr

/-- Modelled from the spec: `ProcessingResult` (in the missing
`devknife/core/models.py`) — success flag, optional output, optional error
message, de-duplicated warning list.  The metadata mapping is not needed by
any claim and is omitted. -/
structure ProcessingResult where
  success : Bool
  output : Option String
  error_message : Option String
  warnings : List String
deriving DecidableEq, Repr

/-- Modelled from the spec: validated construction of a `ProcessingResult`.
The spec invariant says `success == false` requires a non-empty error
message; the Python constructor raises a validation error otherwise (message
wording pinned by `tests/core/test_models.py::test_result_validation`). -/
def ProcessingResult.make (success : Bool) (output : Option String)
    (error_message : Option String) : Except String ProcessingResult :=
  if success = false ∧ (error_message.getD "") = "" then
    Except.error "Error message is required when success is False"
  else
    Except.ok ⟨success, output, error_message, []⟩

/-- Modelled from the spec: `add_warning` appends a warning string unless it
is already present (set-like semantics over an ordered list). -/
def ProcessingResult.add_warning (r : ProcessingResult) (w : String) :
    ProcessingResult :=
  if w ∈ r.warnings then r else { r with warnings := r.warnings ++ [w] }

/-- A successful result carrying an output value. -/
def ProcessingResult.okOut (out : String) : ProcessingResult :=
  ⟨true, some out, none, []⟩

/-- A successful result with no output (used by option validation). -/
def ProcessingResult.okUnit : ProcessingResult :=
  ⟨true, none, none, []⟩

/-- A failed result carrying an error message. -/
def ProcessingResult.fail (msg : String) : ProcessingResult :=
  ⟨false, none, some msg, []⟩

/-- Modelled from the spec: `Command` registration metadata (in the missing
`devknife/core/models.py`): name, description, category, declaring module
identifier, and the two front-end exposure flags. -/
structure Command where
  name : String
  description : String
  category : String
  moduleId : String
  cli_enabled : Bool
  tui_enabled : Bool
deriving DecidableEq, Repr

/-- Modelled from the spec: `Config` (in the missing
`devknife/core/models.py`).  The spec requires the fields; the default
values are not stated there and are pinned by
`tests/core/test_models.py::test_default_config`. -/
structure Config where
  default_encoding : String
  max_file_size : Nat
  output_format : String
  tui_theme : String
deriving DecidableEq, Repr

/-- Modelled from the spec: the `Config` produced by construction with no
arguments (defaults pinned by `test_default_config`). -/
def Config.defaultConfig : Config :=
  ⟨"utf-8", 100 * 1024 * 1024, "auto", "default"⟩

/-- Modelled from the spec: an option value in the free-form options mapping.
The spec deliberately leaves value types unchecked (string / int / bool). -/
inductive OptValue where
  | boolean (b : Bool)
  | text (s : String)
  | int (i : Int)
deriving DecidableEq, Repr

/-- Python truthiness of an option value, as used by utilities reading flag
options such as `decode`. -/
def OptValue.truthy : OptValue → Bool
  | OptValue.boolean b => b
  | OptValue.text s => s ≠ ""
  | OptValue.int i => i ≠ 0

/-- An options mapping: association list from option key to value. -/
abbrev Options := List (String × OptValue)

/-- Truthiness of the option stored under `key` (absent keys are falsy, as
with Python's `options.get(key)`). -/
def optFlag (opts : Options) (key : String) : Bool :=
  match opts.lookup key with
  | some v => v.truthy
  | none => false

/-- The blank test used by the utilities' `validate_input`
(`len(s.strip()) > 0` in Python): a string is blank iff every character is
whitespace. -/
def isBlank (s : String) : Bool :=
  s.data.all Char.isWhitespace

/-- Modelled from the spec: the `UtilityModule` capability set (in the
missing `devknife/core/interfaces.py`), as a record of the behaviour of one
utility instance.  `process` returns `Except.error` when the Python method
raises. -/
structure UtilityModule where
  process : InputData → Options → Except String ProcessingResult
  get_help : String
  validate_input : InputData → Bool
  get_command_info : Command
  get_supported_options : List String
  get_examples : List String

/-- Modelled from the spec: a candidate class submitted to
`register_utility`.  `implementsUtilityModule` records whether the class
inherits from `UtilityModule` (the registry's runtime conformance check);
`impl` is the behaviour of its instances, consulted only after the check
passes. -/
structure UtilityClass where
  implementsUtilityModule : Bool
  impl : UtilityModule

/-- Modelled from the spec: `CommandRegistry` (in the missing
`devknife/core/router.py`): the name-indexed class map, the name-indexed
`Command` metadata map, and the category index. -/
structure CommandRegistry where
  utilities : List (String × UtilityClass)
  commands : List (String × Command)
  categories : List (String × List String)

/-- Adds a command name to its category's entry in the category index,
creating the entry when absent. -/
def addCategory (cats : List (String × List String)) (cat name : String) :
    List (String × List String) :=
  match cats.lookup cat with
  | some _ => cats.map (fun p => if p.fst = cat then (p.fst, p.snd ++ [name]) else p)
  | none => (cat, [name]) :: cats

/-- Modelled from the spec: `CommandRegistry.register_utility`.  In order:
verify the candidate implements the `UtilityModule` capability set (error
wording pinned by `test_register_invalid_utility`), read the command name
from a transient instance, reject duplicate names (wording pinned by
`test_register_duplicate_utility`), then record class, metadata and
category.  Failure returns the unchanged-world `Except.error`, so nothing is
registered. -/
def CommandRegistry.register_utility (reg : CommandRegistry)
    (c : UtilityClass) : Except String CommandRegistry :=
  if c.implementsUtilityModule = false then
    Except.error "Utility class must inherit from UtilityModule"
  else
    let info := c.impl.get_command_info
    if (reg.utilities.lookup info.name).isSome then
      Except.error ("Command " ++ info.name ++ " is already registered")
    else
      Except.ok
        { utilities := (info.name, c) :: reg.utilities,
          commands := (info.name, info) :: reg.commands,
          categories := addCategory reg.categories info.category info.name }

/-- Modelled from the spec: `CommandRouter` (in the missing
`devknife/core/router.py`): a registry reference, the lazily populated
instance cache, and the construction counter that models object identity of
cached instances. -/
structure CommandRouter where
  registry : CommandRegistry
  utility_instances : List (String × Nat)
  next_instance : Nat

/-- Modelled from the spec: obtaining the cached instance for a name,
instantiating and storing on first use.  A fresh instantiation consumes the
next construction number. -/
def CommandRouter.cache_instance (r : CommandRouter) (name : String) :
    CommandRouter :=
  match r.utility_instances.lookup name with
  | some _ => r
  | none =>
      { r with
        utility_instances := (name, r.next_instance) :: r.utility_instances,
        next_instance := r.next_instance + 1 }

/-- Modelled from the spec: the option-validation logic shared by
`route_command` and `validate_command_options`: every option key must be a
member of the utility's supported options; otherwise fail with a message
naming the offending keys ("Unsupported options" wording pinned by
`test_validate_command_options`). -/
def validateOptionsWith (supported : List String) (opts : Options) :
    ProcessingResult :=
  let invalid := (opts.map Prod.fst).filter (fun k => !(supported.contains k))
  match invalid with
  | [] => ProcessingResult.okUnit
  | k :: rest =>
      ProcessingResult.fail
        ("Unsupported options: " ++
          (rest.foldl (fun acc x => acc ++ ", " ++ x) k))

/-- Modelled from the spec: `CommandRouter.validate_command_options` —
absent command fails with "Unknown command: {name}"; otherwise the shared
option-validation logic runs against the utility's supported options. -/
def CommandRouter.validate_command_options (r : CommandRouter) (name : String)
    (opts : Options) : ProcessingResult :=
  match r.registry.utilities.lookup name with
  | none => ProcessingResult.fail ("Unknown command: " ++ name)
  | some c => validateOptionsWith c.impl.get_supported_options opts

/-- Modelled from the spec: `CommandRouter.route_command`, short-circuiting
in order: registry lookup ("Unknown command: {name}"), instance caching,
`validate_input` ("Invalid input" wording), option validation (failure
propagated verbatim), then `process`, whose returned result passes through
unchanged and whose raised error is caught and converted into a failed
result.  Returns the result together with the updated router state. -/
def CommandRouter.route_command (r : CommandRouter) (name : String)
    (input : InputData) (opts : Options) : ProcessingResult × CommandRouter :=
  match r.registry.utilities.lookup name with
  | none => (ProcessingResult.fail ("Unknown command: " ++ name), r)
  | some c =>
      let r2 := r.cache_instance name
      if c.impl.validate_input input = true then
        let optRes := validateOptionsWith c.impl.get_supported_options opts
        if optRes.success = true then
          match c.impl.process input opts with
          | Except.ok res => (res, r2)
          | Except.error e =>
              (ProcessingResult.fail
                ("Error processing command " ++ name ++ ": " ++ e), r2)
        else (optRes, r2)
      else (ProcessingResult.fail ("Invalid input for command: " ++ name), r2)

/-- Modelled from the spec: `clear_cache` empties the instance cache. -/
def CommandRouter.clear_cache (r : CommandRouter) : CommandRouter :=
  { r with utility_instances := [] }

/-- `needle` occurs as a contiguous substring of `hay`. -/
def strHas (hay needle : String) : Prop :=
  ∃ pre post, hay = pre ++ needle ++ post

theorem strHas_left (a b : String) : strHas (a ++ b) a :=
  ⟨"", b, by simp [String.append_assoc]⟩

theorem strHas_right (a b : String) : strHas (a ++ b) b :=
  ⟨a, "", by simp⟩

theorem strHas_mid (a b c : String) : strHas (a ++ b ++ c) b :=
  ⟨a, c, rfl⟩

/-- The standard Base64 alphabet: index 0–25 ↦ A–Z, 26–51 ↦ a–z,
52–61 ↦ 0–9, 62 ↦ +, 63 ↦ /. -/
def b64Char (n : Nat) : Char :=
  if n < 26 then Char.ofNat (65 + n)
  else if n < 52 then Char.ofNat (97 + (n - 26))
  else if n < 62 then Char.ofNat (48 + (n - 52))
  else if n = 62 then '+' else '/'

/-- Inverse of the Base64 alphabet; `none` for characters outside it. -/
def b64Val (c : Char) : Option Nat :=
  let n := c.toNat
  if 65 ≤ n ∧ n ≤ 90 then some (n - 65)
  else if 97 ≤ n ∧ n ≤ 122 then some (n - 97 + 26)
  else if 48 ≤ n ∧ n ≤ 57 then some (n - 48 + 52)
  else if c = '+' then some 62
  else if c = '/' then some 63
  else none

theorem b64Val_b64Char : ∀ n, n < 64 → b64Val (b64Char n) = some n := by decide

theorem b64Char_ne_pad : ∀ n, n < 64 → b64Char n ≠ '=' := by decide

/-- Modelled from the spec: standard Base64 encoding of a byte sequence
(the Base64 codec contract of `devknife/utils/encoding_utility.py`, absent
from the tree): 3 bytes become 4 alphabet characters, with `=` padding for a
final 1- or 2-byte group. -/
def b64EncodeBytes : List Nat → List Char
  | [] => []
  | [b1] => [b64Char (b1 / 4), b64Char (b1 % 4 * 16), '=', '=']
  | [b1, b2] =>
      [b64Char (b1 / 4), b64Char (b1 % 4 * 16 + b2 / 16), b64Char (b2 % 16 * 4), '=']
  | b1 :: b2 :: b3 :: rest =>
      b64Char (b1 / 4) :: b64Char (b1 % 4 * 16 + b2 / 16) ::
      b64Char (b2 % 16 * 4 + b3 / 64) :: b64Char (b3 % 64) :: b64EncodeBytes rest

/-- Modelled from the spec: strict Base64 decoding, `none` on any input that
is not well-formed Base64 (wrong length, characters outside the alphabet,
or malformed padding). -/
def b64DecodeBytes : List Char → Option (List Nat)
  | [] => some []
  | c1 :: c2 :: c3 :: c4 :: rest =>
    match b64Val c1, b64Val c2 with
    | some s1, some s2 =>
      if c3 = '=' then
        if c4 = '=' ∧ rest = [] ∧ s2 % 16 = 0 then some [s1 * 4 + s2 / 16] else none
      else
        match b64Val c3 with
        | some s3 =>
          if c4 = '=' then
            if rest = [] ∧ s3 % 4 = 0 then some [s1 * 4 + s2 / 16, s2 % 16 * 16 + s3 / 4]
            else none
          else
            match b64Val c4 with
            | some s4 =>
              match b64DecodeBytes rest with
              | some bs =>
                  some ((s1 * 4 + s2 / 16) :: (s2 % 16 * 16 + s3 / 4) ::
                    (s3 % 4 * 64 + s4) :: bs)
              | none => none
            | none => none
        | none => none
    | _, _ => none
  | _ => none

theorem b64_bytes_round_trip (bs : List Nat) (h : ∀ b ∈ bs, b < 256) :
    b64DecodeBytes (b64EncodeBytes bs) = some bs := by
  induction bs using b64EncodeBytes.induct with
  | case1 => rfl
  | case2 b1 =>
    have hb1 : b1 < 256 := h b1 (by simp)
    have h1 : b1 / 4 < 64 := by omega
    have h2 : b1 % 4 * 16 < 64 := by omega
    have e1 : b1 % 4 * 16 % 16 = 0 := by omega
    simp [b64EncodeBytes, b64DecodeBytes, b64Val_b64Char _ h1, b64Val_b64Char _ h2, e1]
    omega
  | case3 b1 b2 =>
    have hb1 : b1 < 256 := h b1 (by simp)
    have hb2 : b2 < 256 := h b2 (by simp)
    have h1 : b1 / 4 < 64 := by omega
    have h2 : b1 % 4 * 16 + b2 / 16 < 64 := by omega
    have h3 : b2 % 16 * 4 < 64 := by omega
    have e1 : b2 % 16 * 4 % 4 = 0 := by omega
    simp [b64EncodeBytes, b64DecodeBytes, b64Val_b64Char _ h1, b64Val_b64Char _ h2,
      b64Val_b64Char _ h3, b64Char_ne_pad _ h3, e1]
    omega
  | case4 b1 b2 b3 rest ih =>
    have hb1 : b1 < 256 := h b1 (by simp)
    have hb2 : b2 < 256 := h b2 (by simp)
    have hb3 : b3 < 256 := h b3 (by simp)
    have h1 : b1 / 4 < 64 := by omega
    have h2 : b1 % 4 * 16 + b2 / 16 < 64 := by omega
    have h3 : b2 % 16 * 4 + b3 / 64 < 64 := by omega
    have h4 : b3 % 64 < 64 := by omega
    have ih2 := ih (fun b hb => h b (by simp [hb]))
    simp [b64EncodeBytes, b64DecodeBytes, b64Val_b64Char _ h1, b64Val_b64Char _ h2,
      b64Val_b64Char _ h3, b64Val_b64Char _ h4, b64Char_ne_pad _ h3, b64Char_ne_pad _ h4,
      ih2]
    omega

/-- A character of printable ASCII (code points 32–126), the "printable
text" range of the round-trip properties; on this range the UTF-8 byte of a
character is its code-point value. -/
def printableChar (c : Char) : Bool :=
  32 ≤ c.toNat && c.toNat ≤ 126

/-- Modelled from the spec: the text→bytes view used by the Base64 codec,
taking each character to its code-point value (the UTF-8 byte on the
printable-ASCII range the round-trip property quantifies over). -/
def strToBytes (s : String) : List Nat :=
  s.data.map Char.toNat

/-- Modelled from the spec: the bytes→text view inverse to `strToBytes`. -/
def bytesToStr (bs : List Nat) : String :=
  ⟨bs.map Char.ofNat⟩

/-- Modelled from the spec: Base64 encoding of a text payload. -/
def b64EncodeString (s : String) : String :=
  ⟨b64EncodeBytes (strToBytes s)⟩

/-- Modelled from the spec: Base64 decoding of a text payload; `none` when
the payload is not valid Base64. -/
def b64DecodeString (s : String) : Option String :=
  (b64DecodeBytes s.data).map bytesToStr

theorem b64_string_round_trip (s : String) (h : ∀ c ∈ s.data, printableChar c = true) :
    b64DecodeString (b64EncodeString s) = some s := by
  have hb : ∀ b ∈ strToBytes s, b < 256 := by
    intro b hb
    simp [strToBytes] at hb
    obtain ⟨c, hc, rfl⟩ := hb
    have := h c hc
    simp [printableChar] at this
    omega
  have hdec : b64DecodeBytes (b64EncodeBytes (strToBytes s)) = some (strToBytes s) :=
    b64_bytes_round_trip _ hb
  have hback : bytesToStr (strToBytes s) = s := by
    cases s with
    | mk d => simp [bytesToStr, strToBytes, List.map_map, Function.comp_def, Char.ofNat_toNat]
  unfold b64DecodeString b64EncodeString
  rw [show (⟨b64EncodeBytes (strToBytes s)⟩ : String).data = b64EncodeBytes (strToBytes s) from rfl]
  rw [hdec]
  simp [hback]

/-- URL-unreserved characters, kept verbatim by percent-encoding:
letters, digits, and `-` `_` `.` `~` (the safe set asserted by
`test_url_safe_characters`). -/
def urlUnreserved (c : Char) : Bool :=
  let n := c.toNat
  (65 ≤ n && n ≤ 90) || (97 ≤ n && n ≤ 122) || (48 ≤ n && n ≤ 57) ||
  c = '-' || c = '_' || c = '.' || c = '~'

/-- Uppercase hexadecimal digit of a value below 16. -/
def hexDigit (n : Nat) : Char :=
  if n < 10 then Char.ofNat (48 + n) else Char.ofNat (55 + n)

/-- Value of a hexadecimal digit (either case); `none` otherwise. -/
def hexVal (c : Char) : Option Nat :=
  let n := c.toNat
  if 48 ≤ n ∧ n ≤ 57 then some (n - 48)
  else if 65 ≤ n ∧ n ≤ 70 then some (n - 55)
  else if 97 ≤ n ∧ n ≤ 102 then some (n - 87)
  else none

theorem hexVal_hexDigit : ∀ n, n < 16 → hexVal (hexDigit n) = some n := by decide

/-- Modelled from the spec: percent-encoding (the URL codec contract of the
missing `devknife/utils/encoding_utility.py`): unreserved characters pass
through, every other character becomes `%` followed by two hex digits of its
byte (code-point value on the printable-ASCII range). -/
def urlEncodeChars : List Char → List Char
  | [] => []
  | c :: rest =>
    if urlUnreserved c then c :: urlEncodeChars rest
    else '%' :: hexDigit (c.toNat / 16) :: hexDigit (c.toNat % 16) :: urlEncodeChars rest

/-- Modelled from the spec: percent-decoding; `none` on a malformed or
dangling percent escape. -/
def urlDecodeChars : List Char → Option (List Char)
  | [] => some []
  | c :: rest =>
    if c = '%' then
      match rest with
      | h :: l :: rest2 =>
        match hexVal h, hexVal l with
        | some hv, some lv =>
            (urlDecodeChars rest2).map (fun cs => Char.ofNat (hv * 16 + lv) :: cs)
        | _, _ => none
      | _ => none
    else (urlDecodeChars rest).map (fun cs => c :: cs)

theorem unreserved_ne_percent (c : Char) (h : urlUnreserved c = true) : c ≠ '%' := by
  intro he; subst he; simp [urlUnreserved] at h

theorem urlDecodeChars_cons_ne (c : Char) (rest : List Char) (hc : ¬ c = '%') :
    urlDecodeChars (c :: rest) = (urlDecodeChars rest).map (fun cs => c :: cs) := by
  match rest with
  | [] => simp [urlDecodeChars, hc]
  | [h] => simp [urlDecodeChars, hc]
  | h :: l :: t => simp [urlDecodeChars, hc]

theorem urlDecodeChars_pct (h l : Char) (rest : List Char) :
    urlDecodeChars ('%' :: h :: l :: rest) =
      match hexVal h, hexVal l with
      | some hv, some lv =>
          (urlDecodeChars rest).map (fun cs => Char.ofNat (hv * 16 + lv) :: cs)
      | _, _ => none := by
  simp [urlDecodeChars]

theorem url_chars_round_trip (cs : List Char) (h : ∀ c ∈ cs, printableChar c = true) :
    urlDecodeChars (urlEncodeChars cs) = some cs := by
  induction cs with
  | nil => rfl
  | cons c rest ih =>
    have hc : printableChar c = true := h c (by simp)
    have hrest := ih (fun x hx => h x (by simp [hx]))
    by_cases hu : urlUnreserved c = true
    · rw [urlEncodeChars]
      simp only [hu, if_true, ite_true]
      rw [urlDecodeChars_cons_ne c _ (unreserved_ne_percent c hu)]
      simp [hrest]
    · have hlt : c.toNat < 256 := by
        simp [printableChar] at hc; omega
      have h1 : c.toNat / 16 < 16 := by omega
      have h2 : c.toNat % 16 < 16 := by omega
      have e1 : c.toNat / 16 * 16 + c.toNat % 16 = c.toNat := by omega
      rw [urlEncodeChars]
      simp only [hu, Bool.false_eq_true, if_false, ite_false]
      rw [urlDecodeChars_pct]
      simp [hexVal_hexDigit _ h1, hexVal_hexDigit _ h2, e1, Char.ofNat_toNat, hrest]

/-- Modelled from the spec: URL encoding of a text payload. -/
def urlEncodeString (s : String) : String :=
  ⟨urlEncodeChars s.data⟩

/-- Modelled from the spec: URL decoding of a text payload; `none` when the
payload holds a malformed percent escape. -/
def urlDecodeString (s : String) : Option String :=
  (urlDecodeChars s.data).map (fun cs => ⟨cs⟩)

theorem url_string_round_trip (s : String) (h : ∀ c ∈ s.data, printableChar c = true) :
    urlDecodeString (urlEncodeString s) = some s := by
  have hdec : urlDecodeChars (urlEncodeChars s.data) = some s.data :=
    url_chars_round_trip _ h
  unfold urlDecodeString urlEncodeString
  rw [show (⟨urlEncodeChars s.data⟩ : String).data = urlEncodeChars s.data from rfl]
  rw [hdec]
  cases s
  simp

/-- Modelled from the spec: the `Base64EncoderDecoder` utility of the missing
`devknife/utils/encoding_utility.py`.  With a truthy `decode` option it
decodes, failing with a message containing "Invalid Base64 format" (wording
pinned by `test_invalid_base64_decoding`) on invalid Base64; otherwise it
encodes.  `validate_input` rejects blank content; the registration metadata
and `decode` option are as asserted by the encoding-utility tests. -/
def b64Process (input : InputData) (opts : Options) :
    Except String ProcessingResult :=
  if optFlag opts "decode" then
    match b64DecodeString input.content with
    | some decoded => Except.ok (ProcessingResult.okOut decoded)
    | none =>
        Except.ok (ProcessingResult.fail
          "Invalid Base64 format: input is not valid Base64")
  else Except.ok (ProcessingResult.okOut (b64EncodeString input.content))

/-- The Base64 utility as a `UtilityModule` record. -/
def Base64EncoderDecoder : UtilityModule where
  process := b64Process
  get_help := "Base64 encoding and decoding utility"
  validate_input := fun input => !(isBlank input.content)
  get_command_info :=
    ⟨"base64", "Encode or decode Base64 text", "encoding",
      "devknife.utils.encoding_utility", true, true⟩
  get_supported_options := ["decode"]
  get_examples := ["base64 hello", "base64 --decode aGVsbG8="]

/-- Modelled from the spec: the `URLEncoderDecoder` utility of the missing
`devknife/utils/encoding_utility.py`: percent-encodes, or with a truthy
`decode` option percent-decodes, failing on malformed escapes;
`validate_input` rejects blank content. -/
def urlProcess (input : InputData) (opts : Options) :
    Except String ProcessingResult :=
  if optFlag opts "decode" then
    match urlDecodeString input.content with
    | some decoded => Except.ok (ProcessingResult.okOut decoded)
    | none =>
        Except.ok (ProcessingResult.fail "Invalid URL encoding: malformed escape")
  else Except.ok (ProcessingResult.okOut (urlEncodeString input.content))

/-- The URL utility as a `UtilityModule` record. -/
def URLEncoderDecoder : UtilityModule where
  process := urlProcess
  get_help := "URL encoding and decoding utility"
  validate_input := fun input => !(isBlank input.content)
  get_command_info :=
    ⟨"url", "Encode or decode URL text", "encoding",
      "devknife.utils.encoding_utility", true, true⟩
  get_supported_options := ["decode"]
  get_examples := ["url hello world", "url --decode hello%20world"]

theorem strHas_drop_right (hay a b : String) (h : strHas hay (a ++ b)) :
    strHas hay a := by
  obtain ⟨pre, post, hp⟩ := h
  exact ⟨pre, b ++ post, by rw [hp]; simp [String.append_assoc]⟩

theorem strHas_drop_left (hay a b : String) (h : strHas hay (a ++ b)) :
    strHas hay b := by
  obtain ⟨pre, post, hp⟩ := h
  exact ⟨pre ++ a, post, by rw [hp]; simp [String.append_assoc]⟩

theorem route_command_unknown_eq (r : CommandRouter) (name : String)
    (input : InputData) (opts : Options)
    (h : r.registry.utilities.lookup name = none) :
    r.route_command name input opts =
      (ProcessingResult.fail ("Unknown command: " ++ name), r) := by
  unfold CommandRouter.route_command
  rw [h]

theorem route_command_invalid_input_eq (r : CommandRouter) (name : String)
    (input : InputData) (opts : Options) (c : UtilityClass)
    (hc : r.registry.utilities.lookup name = some c)
    (hv : c.impl.validate_input input = false) :
    r.route_command name input opts =
      (ProcessingResult.fail ("Invalid input for command: " ++ name),
        r.cache_instance name) := by
  unfold CommandRouter.route_command
  rw [hc]
  simp [hv]

theorem route_command_process_ok_eq (r : CommandRouter) (name : String)
    (input : InputData) (opts : Options) (c : UtilityClass)
    (res : ProcessingResult)
    (hc : r.registry.utilities.lookup name = some c)
    (hv : c.impl.validate_input input = true)
    (hopt : (validateOptionsWith c.impl.get_supported_options opts).success = true)
    (hp : c.impl.process input opts = Except.ok res) :
    r.route_command name input opts = (res, r.cache_instance name) := by
  unfold CommandRouter.route_command
  rw [hc]
  simp [hv, hopt, hp]

theorem route_command_process_error_eq (r : CommandRouter) (name : String)
    (input : InputData) (opts : Options) (c : UtilityClass) (e : String)
    (hc : r.registry.utilities.lookup name = some c)
    (hv : c.impl.validate_input input = true)
    (hopt : (validateOptionsWith c.impl.get_supported_options opts).success = true)
    (hp : c.impl.process input opts = Except.error e) :
    r.route_command name input opts =
      (ProcessingResult.fail ("Error processing command " ++ name ++ ": " ++ e),
        r.cache_instance name) := by
  unfold CommandRouter.route_command
  rw [hc]
  simp [hv, hopt, hp]

theorem route_command_snd_eq (r : CommandRouter) (name : String)
    (input : InputData) (opts : Options) (c : UtilityClass)
    (hc : r.registry.utilities.lookup name = some c) :
    (r.route_command name input opts).snd = r.cache_instance name := by
  unfold CommandRouter.route_command
  rw [hc]
  by_cases hv : c.impl.validate_input input = true
  · simp only [hv, if_true, ite_true]
    by_cases hopt : (validateOptionsWith c.impl.get_supported_options opts).success = true
    · simp only [hopt, if_true, ite_true]
      cases hp : c.impl.process input opts <;> simp
    · simp [hopt]
  · simp [hv]

theorem cache_instance_miss (r : CommandRouter) (name : String)
    (h : r.utility_instances.lookup name = none) :
    r.cache_instance name =
      { r with
        utility_instances := (name, r.next_instance) :: r.utility_instances,
        next_instance := r.next_instance + 1 } := by
  unfold CommandRouter.cache_instance
  rw [h]

theorem cache_instance_hit (r : CommandRouter) (name : String) (i : Nat)
    (h : r.utility_instances.lookup name = some i) :
    r.cache_instance name = r := by
  unfold CommandRouter.cache_instance
  rw [h]

theorem foldl_comma_extends (l : List String) (acc : String) :
    ∃ post, l.foldl (fun a x => a ++ ", " ++ x) acc = acc ++ post := by
  induction l generalizing acc with
  | nil => exact ⟨"", by simp⟩
  | cons x t ih =>
    obtain ⟨p, hp⟩ := ih (acc ++ ", " ++ x)
    refine ⟨", " ++ x ++ p, ?_⟩
    have h0 : (x :: t).foldl (fun a y => a ++ ", " ++ y) acc
        = t.foldl (fun a y => a ++ ", " ++ y) (acc ++ ", " ++ x) := rfl
    rw [h0, hp]
    simp [String.append_assoc]

theorem validateOptionsWith_success_iff (sup : List String) (opts : Options) :
    (validateOptionsWith sup opts).success = true ↔
      ∀ k ∈ opts.map Prod.fst, k ∈ sup := by
  cases hinv : (opts.map Prod.fst).filter (fun k => !(sup.contains k)) with
  | nil =>
    have hall := List.filter_eq_nil_iff.mp hinv
    have hsucc : (validateOptionsWith sup opts).success = true := by
      simp only [validateOptionsWith]
      rw [hinv]
      rfl
    exact iff_of_true hsucc (fun k hk => by simpa using hall k hk)
  | cons k rest =>
    have hkmem : k ∈ (opts.map Prod.fst).filter (fun x => !(sup.contains x)) := by
      rw [hinv]; exact List.mem_cons_self k rest
    have hkeys : k ∈ opts.map Prod.fst := List.mem_of_mem_filter hkmem
    have hnot : k ∉ sup := by
      have := List.of_mem_filter hkmem
      simpa using this
    have hfail : (validateOptionsWith sup opts).success = false := by
      simp only [validateOptionsWith]
      rw [hinv]
      rfl
    rw [hfail]
    exact iff_of_false (by simp) (fun hall => absurd (hall k hkeys) hnot)

theorem validateOptionsWith_failure (sup : List String) (opts : Options)
    (hk : ∃ k ∈ opts.map Prod.fst, k ∉ sup) :
    (validateOptionsWith sup opts).success = false ∧
    ∃ s, (validateOptionsWith sup opts).error_message = some s ∧
      strHas s "Unsupported options" ∧
      ∃ k ∈ opts.map Prod.fst, k ∉ sup ∧ strHas s k := by
  cases hinv : (opts.map Prod.fst).filter (fun x => !(sup.contains x)) with
  | nil =>
    exfalso
    obtain ⟨k, hkeys, hnot⟩ := hk
    have hmem : k ∈ (opts.map Prod.fst).filter (fun x => !(sup.contains x)) :=
      List.mem_filter.mpr ⟨hkeys, by simpa using hnot⟩
    rw [hinv] at hmem
    cases hmem
  | cons k rest =>
    have hkmem : k ∈ (opts.map Prod.fst).filter (fun x => !(sup.contains x)) := by
      rw [hinv]; exact List.mem_cons_self k rest
    have hkeys : k ∈ opts.map Prod.fst := List.mem_of_mem_filter hkmem
    have hnot : k ∉ sup := by
      have := List.of_mem_filter hkmem
      simpa using this
    obtain ⟨p, hp⟩ := foldl_comma_extends rest k
    have hfail : (validateOptionsWith sup opts).success = false := by
      simp only [validateOptionsWith]
      rw [hinv]
      rfl
    have hmsg : (validateOptionsWith sup opts).error_message =
        some ("Unsupported options: " ++ rest.foldl (fun acc x => acc ++ ", " ++ x) k) := by
      simp only [validateOptionsWith]
      rw [hinv]
      rfl
    refine ⟨hfail, ?_⟩
    refine ⟨"Unsupported options: " ++ rest.foldl (fun acc x => acc ++ ", " ++ x) k,
      hmsg, ?_, k, hkeys, hnot, ?_⟩
    · have hpre : ("Unsupported options: " : String) = "Unsupported options" ++ ": " := rfl
      have := strHas_left ("Unsupported options: ") (rest.foldl (fun a x => a ++ ", " ++ x) k)
      rw [hpre] at this
      exact strHas_drop_right _ _ _ this
    · refine ⟨"Unsupported options: ", p, ?_⟩
      have hp2 : rest.foldl (fun acc x => acc ++ ", " ++ x) k = k ++ p := hp
      rw [hp2]
      simp [String.append_assoc]

/-- A mock utility mirroring the test suites' `MockUtility`: echoes its
input, rejects blank content, supports options `option1` and `option2`. -/
def mockUtility : UtilityModule where
  process := fun input _ =>
    Except.ok (ProcessingResult.okOut ("Processed: " ++ input.content))
  get_help := "Mock utility help text"
  validate_input := fun input => !(isBlank input.content)
  get_command_info :=
    ⟨"mock", "Mock utility for testing", "test", "test_module", true, true⟩
  get_supported_options := ["option1", "option2"]
  get_examples := ["mock example1", "mock example2"]

/-- The mock utility as a conforming registrable class. -/
def mockClass : UtilityClass := ⟨true, mockUtility⟩

/-- A utility whose `process` raises unconditionally, used to witness the
router's fault-conversion behaviour. -/
def raisingUtility : UtilityModule where
  process := fun _ _ => Except.error "boom"
  get_help := "Utility whose process raises"
  validate_input := fun _ => true
  get_command_info :=
    ⟨"boom", "Utility whose process raises", "test", "test_module", true, true⟩
  get_supported_options := []
  get_examples := []

/-- The raising utility as a conforming registrable class. -/
def raisingClass : UtilityClass := ⟨true, raisingUtility⟩

/-- A candidate class that does not implement the `UtilityModule`
capability set. -/
def plainClass : UtilityClass := ⟨false, mockUtility⟩

/-- A registry holding the mock and raising utilities. -/
def testRegistry : CommandRegistry :=
  ⟨[("mock", mockClass), ("boom", raisingClass)],
   [("mock", mockUtility.get_command_info), ("boom", raisingUtility.get_command_info)],
   [("test", ["mock", "boom"])]⟩

/-- A fresh router over `testRegistry`. -/
def testRouter : CommandRouter := ⟨testRegistry, [], 0⟩

/-- C1: for every command name not registered in the registry and every
input, `route_command` returns a result with `success = false`, no output,
and an error message containing both "Unknown command" and the submitted
name. -/
theorem route_command_unknown_command (r : CommandRouter) (name : String)
    (input : InputData) (opts : Options)
    (h : r.registry.utilities.lookup name = none) :
    (r.route_command name input opts).fst.success = false ∧
    (r.route_command name input opts).fst.output = none ∧
    ∃ s, (r.route_command name input opts).fst.error_message = some s ∧
      strHas s "Unknown command" ∧ strHas s name := by
  have heq := route_command_unknown_eq r name input opts h
  rw [heq]
  refine ⟨rfl, rfl, "Unknown command: " ++ name, rfl, ?_, strHas_right _ _⟩
  have h0 := strHas_left ("Unknown command: ") name
  have hpre : ("Unknown command: " : String) = "Unknown command" ++ ": " := rfl
  rw [hpre] at h0
  exact strHas_drop_right _ _ _ h0

/-- Witness for C1 at the unregistered name "bogus". -/
theorem route_command_unknown_command_witness :
    (testRouter.route_command "bogus" ⟨"hi", InputSource.args, "utf-8"⟩ []).fst.success
      = false :=
  (route_command_unknown_command testRouter "bogus" ⟨"hi", InputSource.args, "utf-8"⟩ []
    rfl).1

/-- C2: for a registered name, `validate_command_options` succeeds iff every
option key is among the utility's supported options; when a key is
unsupported it fails with a message containing "Unsupported options" and an
offending key; for an unregistered name it fails with a message containing
"Unknown command" and the name. -/
theorem validate_command_options_spec (r : CommandRouter) (name : String)
    (opts : Options) :
    (∀ c, r.registry.utilities.lookup name = some c →
      ((r.validate_command_options name opts).success = true ↔
        ∀ k ∈ opts.map Prod.fst, k ∈ c.impl.get_supported_options) ∧
      ((∃ k ∈ opts.map Prod.fst, k ∉ c.impl.get_supported_options) →
        (r.validate_command_options name opts).success = false ∧
        ∃ s, (r.validate_command_options name opts).error_message = some s ∧
          strHas s "Unsupported options" ∧
          ∃ k ∈ opts.map Prod.fst, k ∉ c.impl.get_supported_options ∧ strHas s k)) ∧
    (r.registry.utilities.lookup name = none →
      (r.validate_command_options name opts).success = false ∧
      ∃ s, (r.validate_command_options name opts).error_message = some s ∧
        strHas s "Unknown command" ∧ strHas s name) := by
  constructor
  · intro c hc
    have hvc : r.validate_command_options name opts =
        validateOptionsWith c.impl.get_supported_options opts := by
      unfold CommandRouter.validate_command_options
      rw [hc]
    rw [hvc]
    exact ⟨validateOptionsWith_success_iff _ _,
      fun hk => validateOptionsWith_failure _ _ hk⟩
  · intro h
    have hvc : r.validate_command_options name opts =
        ProcessingResult.fail ("Unknown command: " ++ name) := by
      unfold CommandRouter.validate_command_options
      rw [h]
    rw [hvc]
    refine ⟨rfl, "Unknown command: " ++ name, rfl, ?_, strHas_right _ _⟩
    have h0 := strHas_left ("Unknown command: ") name
    have hpre : ("Unknown command: " : String) = "Unknown command" ++ ": " := rfl
    rw [hpre] at h0
    exact strHas_drop_right _ _ _ h0

/-- Witness for C2: an unsupported key on a registered command fails, and
an unregistered command fails. -/
theorem validate_command_options_spec_witness :
    (testRouter.validate_command_options "mock" [("bad", OptValue.int 1)]).success
      = false ∧
    (testRouter.validate_command_options "bogus" []).success = false :=
  ⟨(((validate_command_options_spec testRouter "mock" [("bad", OptValue.int 1)]).1
      mockClass rfl).2 ⟨"bad", by simp, by decide⟩).1,
   ((validate_command_options_spec testRouter "bogus" []).2 rfl).1⟩

/-- C3: when a registered utility's `process` raises (models a Python
exception as `Except.error`), `route_command` catches it and returns a
failed `ProcessingResult`; being a total function into
`ProcessingResult × CommandRouter`, the router lets no fault escape. -/
theorem route_command_converts_raised_error (r : CommandRouter) (name : String)
    (input : InputData) (opts : Options) (c : UtilityClass) (e : String)
    (hc : r.registry.utilities.lookup name = some c)
    (hv : c.impl.validate_input input = true)
    (ho : ∀ k ∈ opts.map Prod.fst, k ∈ c.impl.get_supported_options)
    (hp : c.impl.process input opts = Except.error e) :
    (r.route_command name input opts).fst =
      ProcessingResult.fail ("Error processing command " ++ name ++ ": " ++ e) ∧
    (r.route_command name input opts).fst.success = false ∧
    (r.route_command name input opts).fst.output = none := by
  have hopt := (validateOptionsWith_success_iff c.impl.get_supported_options opts).mpr ho
  have heq := route_command_process_error_eq r name input opts c e hc hv hopt hp
  rw [heq]
  exact ⟨rfl, rfl, rfl⟩

/-- Witness for C3 at a utility whose `process` always raises. -/
theorem route_command_converts_raised_error_witness :
    (testRouter.route_command "boom" ⟨"hi", InputSource.args, "utf-8"⟩ []).fst.success
      = false :=
  (route_command_converts_raised_error testRouter "boom"
    ⟨"hi", InputSource.args, "utf-8"⟩ [] raisingClass "boom" rfl rfl (by simp) rfl).2.1

/-- C4: for a registered command whose `validate_input` rejects blank
content, routing each of `""`, `"   "`, `"\t"`, `"\n"` yields
`success = false`, no output, and an error containing "Invalid input"; the
result equals the input-validation failure value, which is computed without
consulting `process` — the pipeline short-circuits before it. -/
theorem route_command_blank_input_rejected (r : CommandRouter) (name : String)
    (c : UtilityClass) (src : InputSource) (enc : String) (opts : Options)
    (hc : r.registry.utilities.lookup name = some c)
    (hb : ∀ input : InputData, isBlank input.content = true →
      c.impl.validate_input input = false) :
    ∀ content ∈ (["", "   ", "\t", "\n"] : List String),
      (r.route_command name ⟨content, src, enc⟩ opts).fst =
        ProcessingResult.fail ("Invalid input for command: " ++ name) ∧
      (r.route_command name ⟨content, src, enc⟩ opts).fst.success = false ∧
      (r.route_command name ⟨content, src, enc⟩ opts).fst.output = none ∧
      ∃ s, (r.route_command name ⟨content, src, enc⟩ opts).fst.error_message = some s ∧
        strHas s "Invalid input" := by
  intro content hcontent
  have hblank : isBlank content = true := by
    simp only [List.mem_cons, List.mem_singleton, List.not_mem_nil, or_false] at hcontent
    rcases hcontent with rfl | rfl | rfl | rfl <;> decide
  have hv := hb ⟨content, src, enc⟩ hblank
  have heq := route_command_invalid_input_eq r name ⟨content, src, enc⟩ opts c hc hv
  rw [heq]
  refine ⟨rfl, rfl, rfl, "Invalid input for command: " ++ name, rfl, ?_⟩
  have h0 := strHas_left ("Invalid input for command: ") name
  have hpre : ("Invalid input for command: " : String)
      = "Invalid input" ++ " for command: " := rfl
  rw [hpre] at h0
  exact strHas_drop_right _ _ _ h0

/-- Witness for C4 at the blank-rejecting mock utility and the empty
string. -/
theorem route_command_blank_input_rejected_witness :
    (testRouter.route_command "mock" ⟨"", InputSource.args, "utf-8"⟩ []).fst.success
      = false :=
  (route_command_blank_input_rejected testRouter "mock" mockClass InputSource.args
    "utf-8" [] rfl (fun i h => by simp [mockClass, mockUtility, h]) "" (by simp)).2.1

/-- C5: per command name the router holds at most one instance: the first
`route_command` call instantiates and caches (construction number
`r.next_instance`), a second call leaves the router state unchanged,
`clear_cache` removes every cached instance, and the next call after
clearing instantiates a fresh instance (a construction number different
from the first). -/
theorem router_instance_cache_lifecycle (r : CommandRouter) (name : String)
    (input : InputData) (opts : Options) (c : UtilityClass)
    (hc : r.registry.utilities.lookup name = some c)
    (h0 : r.utility_instances.lookup name = none) :
    (r.route_command name input opts).snd.utility_instances.lookup name
      = some r.next_instance ∧
    ((r.route_command name input opts).snd.route_command name input opts).snd
      = (r.route_command name input opts).snd ∧
    (r.route_command name input opts).snd.clear_cache.utility_instances = [] ∧
    ((r.route_command name input opts).snd.clear_cache.route_command name input
        opts).snd.utility_instances.lookup name = some (r.next_instance + 1) ∧
    r.next_instance + 1 ≠ r.next_instance := by
  have hr1 : (r.route_command name input opts).snd =
      { r with
        utility_instances := (name, r.next_instance) :: r.utility_instances,
        next_instance := r.next_instance + 1 } := by
    rw [route_command_snd_eq r name input opts c hc, cache_instance_miss r name h0]
  refine ⟨?_, ?_, ?_, ?_, by omega⟩
  · rw [hr1]
    simp
  · rw [hr1]
    have hc1 : ({ r with
        utility_instances := (name, r.next_instance) :: r.utility_instances,
        next_instance := r.next_instance + 1 } : CommandRouter).registry.utilities.lookup
          name = some c := hc
    rw [route_command_snd_eq _ name input opts c hc1]
    exact cache_instance_hit _ name r.next_instance (by simp)
  · rw [hr1]
    rfl
  · rw [hr1]
    have hcc : ({ r with
        utility_instances := (name, r.next_instance) :: r.utility_instances,
        next_instance := r.next_instance + 1 } : CommandRouter).clear_cache =
      { registry := r.registry, utility_instances := [],
        next_instance := r.next_instance + 1 } := rfl
    rw [hcc]
    have hc2 : ({ registry := r.registry,
                  utility_instances := [],
                  next_instance := r.next_instance + 1 } :
        CommandRouter).registry.utilities.lookup name = some c := hc
    rw [route_command_snd_eq _ name input opts c hc2]
    have hm2 : ({ registry := r.registry,
                  utility_instances := [],
                  next_instance := r.next_instance + 1 } :
        CommandRouter).utility_instances.lookup name = none := rfl
    rw [cache_instance_miss _ name hm2]
    simp

/-- Witness for C5 at the fresh test router and the mock command. -/
theorem router_instance_cache_lifecycle_witness :
    (testRouter.route_command "mock" ⟨"hi", InputSource.args, "utf-8"⟩ []).snd.utility_instances.lookup "mock" = some 0 ∧
    (testRouter.route_command "mock" ⟨"hi", InputSource.args, "utf-8"⟩ []).snd.clear_cache.utility_instances = [] :=
  have h := router_instance_cache_lifecycle testRouter "mock"
    ⟨"hi", InputSource.args, "utf-8"⟩ [] mockClass rfl rfl
  ⟨h.1, h.2.2.1⟩

/-- C6: `register_utility` fails with a message containing "must inherit
from" for a candidate that does not implement the `UtilityModule`
capability set, and with a message containing "already registered" for a
duplicate command name; since failure returns `Except.error` and no new
registry, nothing is registered in either case. -/
theorem register_utility_rejections (reg : CommandRegistry) (c : UtilityClass) :
    (c.implementsUtilityModule = false →
      ∃ msg, reg.register_utility c = Except.error msg ∧
        strHas msg "must inherit from") ∧
    (c.implementsUtilityModule = true →
      (reg.utilities.lookup c.impl.get_command_info.name).isSome = true →
      ∃ msg, reg.register_utility c = Except.error msg ∧
        strHas msg "already registered") := by
  constructor
  · intro h
    refine ⟨"Utility class must inherit from UtilityModule", ?_, ?_⟩
    · simp [CommandRegistry.register_utility, h]
    · exact ⟨"Utility class ", " UtilityModule", rfl⟩
  · intro h hdup
    refine ⟨"Command " ++ c.impl.get_command_info.name ++ " is already registered",
      ?_, ?_⟩
    · simp [CommandRegistry.register_utility, h, hdup]
    · refine ⟨"Command " ++ c.impl.get_command_info.name ++ " is ", "", ?_⟩
      simp only [String.append_assoc]
      rfl

/-- Witness for C6: a non-conforming class and a duplicate name are both
rejected. -/
theorem register_utility_rejections_witness :
    (∃ msg, testRegistry.register_utility plainClass = Except.error msg ∧
      strHas msg "must inherit from") ∧
    (∃ msg, testRegistry.register_utility mockClass = Except.error msg ∧
      strHas msg "already registered") :=
  ⟨(register_utility_rejections testRegistry plainClass).1 rfl,
   (register_utility_rejections testRegistry mockClass).2 rfl rfl⟩

theorem b64Process_encode (input : InputData) (opts : Options)
    (hflag : optFlag opts "decode" = false) :
    b64Process input opts =
      Except.ok (ProcessingResult.okOut (b64EncodeString input.content)) := by
  unfold b64Process
  rw [hflag]
  simp

theorem b64Process_decode (input : InputData) (opts : Options)
    (hflag : optFlag opts "decode" = true) :
    b64Process input opts =
      (match b64DecodeString input.content with
        | some d => Except.ok (ProcessingResult.okOut d)
        | none =>
            Except.ok (ProcessingResult.fail
              "Invalid Base64 format: input is not valid Base64")) := by
  unfold b64Process
  rw [hflag]
  simp

theorem urlProcess_encode (input : InputData) (opts : Options)
    (hflag : optFlag opts "decode" = false) :
    urlProcess input opts =
      Except.ok (ProcessingResult.okOut (urlEncodeString input.content)) := by
  unfold urlProcess
  rw [hflag]
  simp

theorem urlProcess_decode (input : InputData) (opts : Options)
    (hflag : optFlag opts "decode" = true) :
    urlProcess input opts =
      (match urlDecodeString input.content with
        | some d => Except.ok (ProcessingResult.okOut d)
        | none =>
            Except.ok (ProcessingResult.fail
              "Invalid URL encoding: malformed escape")) := by
  unfold urlProcess
  rw [hflag]
  simp

/-- C7: for both the Base64 and the URL codec utilities, `process` on any
printable text with no options encodes successfully, and `process` on the
encoded output with option `decode = true` succeeds and returns exactly the
original text: decode(encode(x)) = x. -/
theorem encoding_round_trip (x : String) (src : InputSource) (enc : String)
    (hx : ∀ c ∈ x.data, printableChar c = true) :
    (∃ y, Base64EncoderDecoder.process ⟨x, src, enc⟩ [] =
        Except.ok (ProcessingResult.okOut y) ∧
      Base64EncoderDecoder.process ⟨y, src, enc⟩ [("decode", OptValue.boolean true)] =
        Except.ok (ProcessingResult.okOut x)) ∧
    (∃ y, URLEncoderDecoder.process ⟨x, src, enc⟩ [] =
        Except.ok (ProcessingResult.okOut y) ∧
      URLEncoderDecoder.process ⟨y, src, enc⟩ [("decode", OptValue.boolean true)] =
        Except.ok (ProcessingResult.okOut x)) := by
  constructor
  · refine ⟨b64EncodeString x, ?_, ?_⟩
    · show b64Process ⟨x, src, enc⟩ [] = _
      rw [b64Process_encode ⟨x, src, enc⟩ [] rfl]
    · show b64Process ⟨b64EncodeString x, src, enc⟩ [("decode", OptValue.boolean true)] = _
      rw [b64Process_decode ⟨b64EncodeString x, src, enc⟩
        [("decode", OptValue.boolean true)] rfl]
      have hdec : b64DecodeString (b64EncodeString x) = some x :=
        b64_string_round_trip x hx
      rw [show (⟨b64EncodeString x, src, enc⟩ : InputData).content
          = b64EncodeString x from rfl, hdec]
  · refine ⟨urlEncodeString x, ?_, ?_⟩
    · show urlProcess ⟨x, src, enc⟩ [] = _
      rw [urlProcess_encode ⟨x, src, enc⟩ [] rfl]
    · show urlProcess ⟨urlEncodeString x, src, enc⟩ [("decode", OptValue.boolean true)] = _
      rw [urlProcess_decode ⟨urlEncodeString x, src, enc⟩
        [("decode", OptValue.boolean true)] rfl]
      have hdec : urlDecodeString (urlEncodeString x) = some x :=
        url_string_round_trip x hx
      rw [show (⟨urlEncodeString x, src, enc⟩ : InputData).content
          = urlEncodeString x from rfl, hdec]

/-- Witness for C7 at the printable text "Hello World". -/
theorem encoding_round_trip_witness :
    (∃ y, Base64EncoderDecoder.process ⟨"Hello World", InputSource.args, "utf-8"⟩ [] =
        Except.ok (ProcessingResult.okOut y) ∧
      Base64EncoderDecoder.process ⟨y, InputSource.args, "utf-8"⟩
          [("decode", OptValue.boolean true)] =
        Except.ok (ProcessingResult.okOut "Hello World")) ∧
    (∃ y, URLEncoderDecoder.process ⟨"Hello World", InputSource.args, "utf-8"⟩ [] =
        Except.ok (ProcessingResult.okOut y) ∧
      URLEncoderDecoder.process ⟨y, InputSource.args, "utf-8"⟩
          [("decode", OptValue.boolean true)] =
        Except.ok (ProcessingResult.okOut "Hello World")) :=
  encoding_round_trip "Hello World" InputSource.args "utf-8" (by decide)

/-- C8: constructing a `ProcessingResult` with `success = false` and an
absent or empty error message is rejected as a validation error, so every
constructed failed result carries a non-empty error message; and
`add_warning` is idempotent on an already-present warning. -/
theorem processing_result_invariants :
    (∀ output : Option String,
      ProcessingResult.make false output none =
        Except.error "Error message is required when success is False") ∧
    (∀ output : Option String,
      ProcessingResult.make false output (some "") =
        Except.error "Error message is required when success is False") ∧
    (∀ (success : Bool) (output error_message : Option String)
        (res : ProcessingResult),
      ProcessingResult.make success output error_message = Except.ok res →
      res.success = false → ∃ s, res.error_message = some s ∧ s ≠ "") ∧
    (∀ (res : ProcessingResult) (w : String), w ∈ res.warnings →
      res.add_warning w = res) := by
  refine ⟨fun output => by simp [ProcessingResult.make],
    fun output => by simp [ProcessingResult.make],
    ?_, fun res w hw => by simp [ProcessingResult.add_warning, hw]⟩
  intro success output em res hmk hsucc
  unfold ProcessingResult.make at hmk
  by_cases hcond : success = false ∧ (em.getD "") = ""
  · rw [if_pos hcond] at hmk
    cases hmk
  · rw [if_neg hcond] at hmk
    cases hmk
    cases em with
    | none => exact absurd ⟨hsucc, rfl⟩ hcond
    | some s =>
      refine ⟨s, rfl, fun hs => ?_⟩
      exact hcond ⟨hsucc, by simp [hs]⟩

/-- Witness for C8: the absent-error construction is rejected and a
duplicate warning is a no-op. -/
theorem processing_result_invariants_witness :
    ProcessingResult.make false none none =
      Except.error "Error message is required when success is False" ∧
    ProcessingResult.add_warning ⟨true, some "data", none, ["w"]⟩ "w" =
      ⟨true, some "data", none, ["w"]⟩ :=
  ⟨processing_result_invariants.1 none,
   processing_result_invariants.2.2.2 ⟨true, some "data", none, ["w"]⟩ "w" (by simp)⟩

/-- C9: a `Config` constructed with no arguments has default encoding
"utf-8", max file size 100·1024·1024 bytes, output format "auto" and TUI
theme "default" (defaults pinned by the repository's `test_default_config`;
the spec names the fields without stating the values). -/
theorem config_defaults :
    Config.defaultConfig.default_encoding = "utf-8" ∧
    Config.defaultConfig.max_file_size = 100 * 1024 * 1024 ∧
    Config.defaultConfig.output_format = "auto" ∧
    Config.defaultConfig.tui_theme = "default" :=
  ⟨rfl, rfl, rfl, rfl⟩

/-- C10: on any input that is not valid Base64, the Base64 utility's
`process` with a truthy `decode` option does not raise (`Except.ok`, not
`Except.error`) and returns a failed result whose message contains
"Invalid Base64 format". -/
theorem base64_invalid_decode_reported (input : InputData) (opts : Options)
    (hflag : optFlag opts "decode" = true)
    (hbad : b64DecodeString input.content = none) :
    Base64EncoderDecoder.process input opts =
      Except.ok (ProcessingResult.fail
        "Invalid Base64 format: input is not valid Base64") ∧
    strHas "Invalid Base64 format: input is not valid Base64"
      "Invalid Base64 format" ∧
    (ProcessingResult.fail
      "Invalid Base64 format: input is not valid Base64").success = false := by
  refine ⟨?_, ⟨"", ": input is not valid Base64", rfl⟩, rfl⟩
  show b64Process input opts = _
  rw [b64Process_decode _ _ hflag, hbad]

/-- Witness for C10 at the invalid payload "This is not base64!". -/
theorem base64_invalid_decode_reported_witness :
    Base64EncoderDecoder.process ⟨"This is not base64!", InputSource.args, "utf-8"⟩
        [("decode", OptValue.boolean true)] =
      Except.ok (ProcessingResult.fail
        "Invalid Base64 format: input is not valid Base64") :=
  (base64_invalid_decode_reported ⟨"This is not base64!", InputSource.args, "utf-8"⟩
    [("decode", OptValue.boolean true)] rfl (by decide)).1

end DevKnife
